import Mathlib

/-!
A formal model of the API-AutoFuzz BOLA fuzzer (`fuzzer.py`).

The Python program is a single sequential driver: it loads a JSON OpenAPI
document, enumerates `(path, method)` pairs, substitutes a fixed list of
payloads into every `in: path` parameter placeholder, issues one HTTP
request per `(path, method, payload)` triple through a proxy, records the
path template whenever a response has status 200, and finally writes the
recorded templates to a timestamped report file.

The definitions below are a shallow embedding of that program:
pure string manipulation is translated directly, the network is an oracle
`Request → Option Nat` (`none` models a `requests.exceptions.RequestException`,
`some s` a response with status code `s`), and the driver's
`try`/`except KeyboardInterrupt`/`finally` control flow is made explicit in
`mainRun` (an optional bound `stop` on the number of iterations models a
`KeyboardInterrupt` delivered mid-loop; the `finally` block is the
unconditional `save_results` call in every branch).
-/

set_option autoImplicit false

namespace AutoFuzz

/-! ### Python string primitives used by `fuzzer.py` -/

/-- Tests whether `pat` is an initial run of `s` (character-wise). -/
def hasStart : List Char → List Char → Bool
  | [], _ => true
  | _ :: _, [] => false
  | p :: ps, c :: cs => p == c && hasStart ps cs

/-- Fuel-indexed worker for Python `str.replace`: scans `s` left to right,
replacing each non-overlapping occurrence of `pat` by `repl`.  Each step
consumes at least one character of `s`, so fuel `s.length` always suffices. -/
def replaceAllAux (pat repl : List Char) : Nat → List Char → List Char
  | _, [] => []
  | 0, s => s
  | n + 1, c :: rest =>
    if hasStart pat (c :: rest) then
      repl ++ replaceAllAux pat repl n ((c :: rest).drop pat.length)
    else
      c :: replaceAllAux pat repl n rest

/-- Python `s.replace(pat, repl)` for a non-empty `pat` (the fuzzer only ever
replaces placeholders `\x7bname\x7d`, which have length at least two). -/
def pyReplace (s pat repl : String) : String :=
  ⟨replaceAllAux pat.data repl.data s.data.length s.data⟩

/-- Python `s.lstrip('/')`: removes every leading `'/'` character
(`fuzzer.py` line 104). -/
def lstripSlash (s : String) : String :=
  ⟨s.data.dropWhile (fun c => c == '/')⟩

/-- Python `s.split(sep)` for a one-character separator, on character
lists. -/
def splitChar (sep : Char) : List Char → List (List Char)
  | [] => [[]]
  | c :: rest =>
    if c = sep then [] :: splitChar sep rest
    else
      match splitChar sep rest with
      | [] => [[c]]
      | l :: ls => (c :: l) :: ls

/-- Python `sep.join(parts)` for a one-character separator, on character
lists. -/
def joinChar (sep : Char) : List (List Char) → List Char
  | [] => []
  | [x] => x
  | x :: y :: xs => x ++ sep :: joinChar sep (y :: xs)

/-! ### `urllib.parse.urljoin` (CPython)

`fuzzer.py` line 104 computes `urljoin(base_url, fuzzed_path.lstrip('/'))`.
The model below follows CPython's `urljoin`/`urlsplit` for a base URL of the
form `scheme://netloc/path` — no query, fragment or parameters in the base,
which is the only shape the program's `base_url` configuration is meant to
carry.  The reference (the stripped fuzzed path) is handled in full:
fragment split at the first `'#'`, scheme detection (prefix of scheme
characters starting with a letter before the first `':'`, lowercased, with
the reference returned verbatim when its scheme differs from the base scheme
or is not in `uses_relative`), an optional `//netloc`, query split at the
first `'?'`, `;parameters` split from the last path segment, and CPython's
segment resolution (drop the base path's last segment, filter empty interior
segments, resolve `.` and `..`), reassembled like `urlunsplit`.  CPython's
separate `uses_netloc` test is omitted because `uses_relative` is a subset
of `uses_netloc`, so the test always succeeds once the `uses_relative` gate
has passed. -/

/-- Splits `scheme://netloc/path` into its three components: the scheme is
everything before the first `':'`, the netloc everything from there to the
next `'/'`, the path the rest (possibly empty). -/
def parseBase (l : List Char) : Option (List Char × List Char × List Char) :=
  match l.dropWhile (fun c => c != ':') with
  | ':' :: '/' :: '/' :: r =>
    some (l.takeWhile (fun c => c != ':'),
          r.takeWhile (fun c => c != '/'),
          r.dropWhile (fun c => c != '/'))
  | _ => none

/-- CPython `scheme_chars`: ASCII letters, digits, `'+'`, `'-'`, `'.'`. -/
def isSchemeChar (c : Char) : Bool :=
  c.isAlpha || c.isDigit || c == '+' || c == '-' || c == '.'

/-- Character-wise `str.lower()`. -/
def lowerL (l : List Char) : List Char := l.map Char.toLower

/-- CPython `urllib.parse.uses_relative`. -/
def usesRelative : List String :=
  ["", "ftp", "http", "gopher", "nntp", "imap", "wais", "file", "https", "shttp",
   "mms", "prospero", "rtsp", "rtspu", "sftp", "svn", "svn+ssh", "ws", "wss"]

/-- Python `s.split(sep, 1)`: the part before the first occurrence of `sep`
and, when `sep` occurs, the part after it. -/
def splitAtChar (sep : Char) (l : List Char) : List Char × Option (List Char) :=
  if sep ∈ l then
    (l.takeWhile (fun c => c != sep), some ((l.dropWhile (fun c => c != sep)).tail))
  else (l, none)

/-- Python truthiness of an optional string (absent and `""` are falsy). -/
def optTruthy : Option (List Char) → Bool
  | some (_ :: _) => true
  | _ => false

/-- CPython `urlsplit` scheme detection on a reference: the prefix before
the first `':'` is a scheme when it is non-empty, starts with a letter and
consists of scheme characters only; the split-off scheme is then
lowercased by the caller. -/
def splitRefScheme (u : List Char) : Option (List Char × List Char) :=
  match u.dropWhile (fun c => c != ':') with
  | ':' :: r =>
    match u.takeWhile (fun c => c != ':') with
    | [] => none
    | c :: cs =>
      if c.isAlpha && (c :: cs).all isSchemeChar then some (c :: cs, r) else none
  | _ => none

/-- CPython `_splitparams`: `;parameters` are split off the last
`'/'`-separated segment only. -/
def splitParams (p : List Char) : List Char × Option (List Char) :=
  if '/' ∈ p then
    let lastSeg := (p.reverse.takeWhile (fun c => c != '/')).reverse
    let dirPart := (p.reverse.dropWhile (fun c => c != '/')).reverse
    match splitAtChar ';' lastSeg with
    | (a, some b) => (dirPart ++ a, some b)
    | (_, none) => (p, none)
  else splitAtChar ';' p

/-- CPython `urljoin`'s `base_parts`: the base path split at `'/'`, with the
last element deleted when it is not empty (a non-directory last segment does
not take part in relative resolution). -/
def baseParts (bpath : List Char) : List (List Char) :=
  let parts := splitChar '/' bpath
  if parts.getLast? = some [] then parts else parts.dropLast

/-- Worker for `filterMiddle`: removes empty segments, keeping the final
one. -/
def filterMiddleAux : List (List Char) → List (List Char)
  | [] => []
  | [b] => [b]
  | b :: c :: rest =>
    if b = [] then filterMiddleAux (c :: rest) else b :: filterMiddleAux (c :: rest)

/-- CPython's `segments[1:-1] = filter(None, segments[1:-1])`: empty
segments are removed except for the first and last. -/
def filterMiddle : List (List Char) → List (List Char)
  | [] => []
  | [a] => [a]
  | a :: b :: rest => a :: filterMiddleAux (b :: rest)

/-- CPython `urljoin`'s dot-segment resolution: `..` pops the accumulator
(silently on empty), `.` is skipped, and a trailing `.`/`..` leaves a
trailing slash. -/
def resolveSegs (segs : List (List Char)) : List (List Char) :=
  let rp := segs.foldl (fun acc seg =>
    if seg = ['.', '.'] then acc.dropLast
    else if seg = ['.'] then acc
    else acc ++ [seg]) []
  if segs.getLast? = some ['.'] ∨ segs.getLast? = some ['.', '.'] then rp ++ [[]]
  else rp

/-- CPython `urlunsplit` (plus `urlunparse`'s parameter reattachment):
reassembles `scheme`, `netloc`, `path`, `;params`, `?query` and
`#fragment`; empty params/query/fragment are falsy and dropped. -/
def unsplitPy (scheme netloc path : List Char) (params q frag : Option (List Char)) :
    List Char :=
  let p1 := match params with
    | some (c :: ps) => path ++ ';' :: c :: ps
    | _ => path
  let u1 := if netloc ≠ [] ∨ hasStart ['/', '/'] p1 then
      '/' :: '/' :: netloc ++ (if p1 ≠ [] ∧ p1.head? ≠ some '/' then '/' :: p1 else p1)
    else p1
  let u2 := if scheme ≠ [] then scheme ++ ':' :: u1 else u1
  let u3 := match q with
    | some (c :: qs) => u2 ++ '?' :: c :: qs
    | _ => u2
  match frag with
  | some (c :: fs) => u3 ++ '#' :: c :: fs
  | _ => u3

/-- CPython `urljoin(base, u)` on character lists, for a base of the form
`scheme://netloc/path` (see the section comment). -/
def urljoinL (base u : List Char) : List Char :=
  if u = [] then base
  else
    match parseBase base with
    | none => u
    | some (bscheme0, bnetloc, bpath) =>
      let bscheme := lowerL bscheme0
      let (u1, frag) := splitAtChar '#' u
      let (scheme, u2) :=
        match splitRefScheme u1 with
        | some (s, rest) => (lowerL s, rest)
        | none => (bscheme, u1)
      if scheme ≠ bscheme ∨ (⟨scheme⟩ : String) ∉ usesRelative then u
      else if hasStart ['/', '/'] u2 then
        let r := u2.drop 2
        let netloc := r.takeWhile (fun c => c != '/' && c != '?' && c != '#')
        let rest := r.dropWhile (fun c => c != '/' && c != '?' && c != '#')
        let (p0, q) := splitAtChar '?' rest
        let (p, params) := splitParams p0
        unsplitPy scheme netloc p params q frag
      else
        let (p0, q) := splitAtChar '?' u2
        let (p, params) := splitParams p0
        if p = [] ∧ optTruthy params = false then
          unsplitPy scheme bnetloc bpath none q frag
        else
          let segs := if p.head? = some '/' then splitChar '/' p
            else filterMiddle (baseParts bpath ++ splitChar '/' p)
          let rp := resolveSegs segs
          let path := if joinChar '/' rp = [] then ['/'] else joinChar '/' rp
          unsplitPy scheme bnetloc path params q frag

/-- Python `urljoin(base, url)` (restricted on the base side as described
in the section comment). -/
def urljoin (base url : String) : String :=
  ⟨urljoinL base.data url.data⟩

/-! ### Data model read from the OpenAPI document

`fuzz_path_parameters` only reads, for each path template, the mapping of
method names to operations, and for each operation the list
`operation.get('parameters', [])` of descriptors with fields `name` and
`in`.  `Param.loc` models `p.get('in')` (`none` when the field is absent). -/

structure Param where
  name : String
  loc : Option String
deriving DecidableEq, Repr

/-- An operation, reduced to the only part the code reads:
`operation.get('parameters', [])`. -/
abbrev Operation := List Param

/-- A path item: the method → operation entries of `path_data.items()`. -/
abbrev PathItem := List (String × Operation)

/-- The parsed specification, reduced to `spec.get('paths', {})`
(insertion-ordered, like a Python dict). -/
structure Spec where
  paths : List (String × PathItem)
deriving DecidableEq, Repr

/-- The fixed payload list (`fuzzer.py` lines 20–28). -/
def FUZZ_PAYLOADS : List String := ["1", "0", "6,5", "24", "-5", "*&^$", "text"]

/-- The list-comprehension filter of lines 87–90:
`[p for p in operation.get('parameters', []) if p.get('in') == 'path']`. -/
def pathParams (op : Operation) : List Param :=
  op.filter (fun p => p.loc == some "path")

/-- The placeholder `f'\x7b\x7bparam["name"]\x7d\x7d'` of line 101. -/
def placeholder (p : Param) : String :=
  "\x7b" ++ p.name ++ "\x7d"

/-- The substitution loop of lines 96–102: starting from the path template,
each path parameter's placeholder is replaced (all occurrences) with the
current payload — the same payload for every parameter of the request. -/
def fuzzedPath (path : String) (ps : List Param) (payload : String) : String :=
  ps.foldl (fun fp p => pyReplace fp (placeholder p) payload) path

/-- Line 104: `full_url = urljoin(base_url, fuzzed_path.lstrip('/'))`. -/
def fullUrl (base fuzzed : String) : String :=
  urljoin base (lstripSlash fuzzed)

/-- One HTTP request issued by the loop. -/
structure Request where
  path : String
  method : String
  payload : String
  url : String
deriving DecidableEq, Repr

/-- The requests issued for one `(path, method)` pair (lines 92–104):
nothing when the operation has no path parameter, otherwise one request per
payload, in payload-list order. -/
def requestsFor (base path method : String) (op : Operation) : List Request :=
  let ps := pathParams op
  if ps.isEmpty then []
  else FUZZ_PAYLOADS.map (fun pl => ⟨path, method, pl, fullUrl base (fuzzedPath path ps pl)⟩)

/-- The full request sequence of `fuzz_path_parameters` (lines 84–104). -/
def fuzzRequests (spec : Spec) (base : String) : List Request :=
  spec.paths.flatMap (fun pp => pp.2.flatMap (fun mo => requestsFor base pp.1 mo.1 mo.2))

/-- Number of fuzzable `(path, method)` pairs: those whose operation has at
least one `in: path` parameter. -/
def fuzzableCount (spec : Spec) : Nat :=
  (spec.paths.map (fun pp => pp.2.countP (fun mo => !(pathParams mo.2).isEmpty))).sum

/-! ### Finding accumulation (lines 107–127)

`PositiveResponses` starts empty; after each request, lines 118–122 append
the path template exactly when the status code is `200` and the template is
not yet recorded.  A `RequestException` (`none` from the oracle) records
nothing. -/

/-- The classification step of lines 118–122 for one response:
`if res.status_code == 200: if path not in PositiveResponses: append`. -/
def step (acc : List String) (path : String) (status : Option Nat) : List String :=
  if status = some 200 then
    (if path ∈ acc then acc else acc ++ [path])
  else acc

/-- The contents of `PositiveResponses` after the loop has processed the
given request list against the response oracle `resp`. -/
def runFindings (resp : Request → Option Nat) (reqs : List Request) : List String :=
  reqs.foldl (fun acc r => step acc r.path (resp r)) []

/-! ### Lemmas about the request enumeration -/

theorem length_requestsFor (base p m : String) (op : Operation) :
    (requestsFor base p m op).length = if (pathParams op).isEmpty then 0 else 7 := by
  unfold requestsFor
  by_cases h : (pathParams op).isEmpty <;> simp [h, FUZZ_PAYLOADS]

theorem payloads_requestsFor (base p m : String) (op : Operation) :
    (requestsFor base p m op).map (fun r => r.payload) =
      if (pathParams op).isEmpty then [] else FUZZ_PAYLOADS := by
  unfold requestsFor
  by_cases h : (pathParams op).isEmpty <;> simp [h, Function.comp_def]

theorem mem_requestsFor (base p m : String) (op : Operation) (r : Request)
    (hr : r ∈ requestsFor base p m op) :
    r.payload ∈ FUZZ_PAYLOADS ∧ r.path = p ∧ r.method = m ∧
      r.url = fullUrl base (fuzzedPath p (pathParams op) r.payload) := by
  unfold requestsFor at hr
  by_cases h : (pathParams op).isEmpty
  · simp [h] at hr
  · simp only [h, if_neg, Bool.false_eq_true, if_false, List.mem_map] at hr
    obtain ⟨pl, hpl, rfl⟩ := hr
    exact ⟨hpl, rfl, rfl, rfl⟩

theorem mem_fuzzRequests (spec : Spec) (base : String) (r : Request)
    (hr : r ∈ fuzzRequests spec base) :
    ∃ p pitem method op, (p, pitem) ∈ spec.paths ∧ (method, op) ∈ pitem ∧
      r ∈ requestsFor base p method op := by
  unfold fuzzRequests at hr
  simp only [List.mem_flatMap] at hr
  obtain ⟨⟨p, pitem⟩, hp, ⟨⟨method, op⟩, hm, hr⟩⟩ := hr
  exact ⟨p, pitem, method, op, hp, hm, hr⟩

theorem sum_map_if_seven {α : Type} (l : List α) (p : α → Bool) :
    (l.map fun x => if p x then 7 else 0).sum = 7 * l.countP p := by
  induction l with
  | nil => simp
  | cons a l ih =>
    by_cases h : p a
    · simp [List.countP_cons, h, ih]
      omega
    · simp [List.countP_cons, h, ih]

theorem length_fuzzRequests (spec : Spec) (base : String) :
    (fuzzRequests spec base).length = 7 * fuzzableCount spec := by
  unfold fuzzRequests fuzzableCount
  rw [List.length_flatMap]
  have inner : ∀ pp : String × PathItem,
      (pp.2.flatMap fun mo => requestsFor base pp.1 mo.1 mo.2).length
        = 7 * pp.2.countP (fun mo => !(pathParams mo.2).isEmpty) := by
    intro pp
    rw [List.length_flatMap]
    have hmap : List.map (List.length ∘ fun mo => requestsFor base pp.1 mo.1 mo.2) pp.2
        = pp.2.map (fun mo => if !(pathParams mo.2).isEmpty then 7 else 0) := by
      apply List.map_congr_left
      intro mo _
      simp only [Function.comp_apply, length_requestsFor]
      by_cases h : (pathParams mo.2).isEmpty <;> simp [h]
    rw [hmap, sum_map_if_seven]
  have houter : List.map (List.length ∘ fun pp : String × PathItem =>
        pp.2.flatMap fun mo => requestsFor base pp.1 mo.1 mo.2) spec.paths
      = spec.paths.map (fun pp => 7 * pp.2.countP (fun mo => !(pathParams mo.2).isEmpty)) := by
    apply List.map_congr_left
    intro pp _
    simpa using inner pp
  rw [houter, List.sum_map_mul_left]

theorem fuzzRequests_eq_nil (spec : Spec) (base : String) (h : fuzzableCount spec = 0) :
    fuzzRequests spec base = [] := by
  have hl := length_fuzzRequests spec base
  rw [h, Nat.mul_zero] at hl
  exact List.length_eq_zero.mp hl

/-! ### Lemmas about finding accumulation -/

theorem mem_step (acc : List String) (p q : String) (st : Option Nat) :
    q ∈ step acc p st ↔ q ∈ acc ∨ (st = some 200 ∧ q = p) := by
  unfold step
  by_cases h : st = some 200
  · rw [if_pos h]
    by_cases hq : p ∈ acc
    · rw [if_pos hq]
      constructor
      · intro h1
        exact Or.inl h1
      · rintro (h1 | ⟨h2, rfl⟩)
        · exact h1
        · exact hq
    · rw [if_neg hq]
      simp only [List.mem_append, List.mem_singleton]
      constructor
      · rintro (h1 | rfl)
        · exact Or.inl h1
        · exact Or.inr ⟨h, rfl⟩
      · rintro (h1 | ⟨h2, rfl⟩)
        · exact Or.inl h1
        · exact Or.inr rfl
  · rw [if_neg h]
    constructor
    · intro h1
      exact Or.inl h1
    · rintro (h1 | ⟨h2, rfl⟩)
      · exact h1
      · exact absurd h2 h

theorem step_of_ne (acc : List String) (p : String) (st : Option Nat) (h : st ≠ some 200) :
    step acc p st = acc := by
  simp [step, h]

theorem step_nodup (acc : List String) (p : String) (st : Option Nat) (h : acc.Nodup) :
    (step acc p st).Nodup := by
  unfold step
  split
  · split
    · exact h
    · rename_i hp
      simp [List.nodup_append, h, hp]
  · exact h

theorem step_append (acc : List String) (p : String) (st : Option Nat) :
    ∃ t, step acc p st = acc ++ t := by
  unfold step
  split
  · split
    · exact ⟨[], by simp⟩
    · exact ⟨[p], rfl⟩
  · exact ⟨[], by simp⟩

theorem mem_foldl_step (resp : Request → Option Nat) (reqs : List Request) :
    ∀ (acc : List String) (q : String),
      q ∈ reqs.foldl (fun a r => step a r.path (resp r)) acc ↔
        q ∈ acc ∨ ∃ r ∈ reqs, r.path = q ∧ resp r = some 200 := by
  induction reqs with
  | nil => simp
  | cons r rs ih =>
    intro acc q
    simp only [List.foldl_cons, ih, mem_step, List.mem_cons]
    constructor
    · rintro ((h | ⟨h1, h2⟩) | ⟨r', hr', h1, h2⟩)
      · exact Or.inl h
      · exact Or.inr ⟨r, Or.inl rfl, h2.symm, h1⟩
      · exact Or.inr ⟨r', Or.inr hr', h1, h2⟩
    · rintro (h | ⟨r', (rfl | hr'), h1, h2⟩)
      · exact Or.inl (Or.inl h)
      · exact Or.inl (Or.inr ⟨h2, h1.symm⟩)
      · exact Or.inr ⟨r', hr', h1, h2⟩

theorem nodup_foldl_step (resp : Request → Option Nat) (reqs : List Request) :
    ∀ (acc : List String), acc.Nodup →
      (reqs.foldl (fun a r => step a r.path (resp r)) acc).Nodup := by
  induction reqs with
  | nil => intro acc h; exact h
  | cons r rs ih =>
    intro acc h
    exact ih _ (step_nodup _ _ _ h)

theorem foldl_step_grows (resp : Request → Option Nat) (reqs : List Request) :
    ∀ (acc : List String), ∃ t, reqs.foldl (fun a r => step a r.path (resp r)) acc = acc ++ t := by
  induction reqs with
  | nil => intro acc; exact ⟨[], by simp⟩
  | cons r rs ih =>
    intro acc
    obtain ⟨s, hs⟩ := step_append acc r.path (resp r)
    obtain ⟨t, ht⟩ := ih (step acc r.path (resp r))
    exact ⟨s ++ t, by rw [List.foldl_cons, ht, hs, List.append_assoc]⟩

/-! ### Lemmas about URL resolution -/

theorem joinChar_append (sep : Char) (xs ys : List (List Char))
    (hx : xs ≠ []) (hy : ys ≠ []) :
    joinChar sep (xs ++ ys) = joinChar sep xs ++ sep :: joinChar sep ys := by
  induction xs with
  | nil => exact absurd rfl hx
  | cons x xs' ih =>
    cases xs' with
    | nil =>
      cases ys with
      | nil => exact absurd rfl hy
      | cons y ys' => simp [joinChar]
    | cons x2 xs'' =>
      have h1 : (x2 :: xs'') ++ ys = x2 :: (xs'' ++ ys) := by simp
      calc joinChar sep ((x :: x2 :: xs'') ++ ys)
          = x ++ sep :: joinChar sep ((x2 :: xs'') ++ ys) := by
            rw [List.cons_append, h1, joinChar, ← h1]
        _ = x ++ sep :: (joinChar sep (x2 :: xs'') ++ sep :: joinChar sep ys) := by
            rw [ih (by simp)]
        _ = joinChar sep (x :: x2 :: xs'') ++ sep :: joinChar sep ys := by
            rw [joinChar]
            simp

/-- Splits a character list at newline characters (Python line structure of
the written file). -/
def splitNl : List Char → List (List Char)
  | [] => [[]]
  | c :: rest =>
    if c = '\n' then [] :: splitNl rest
    else
      match splitNl rest with
      | [] => [[c]]
      | l :: ls => (c :: l) :: ls

/-- Python `"\n".join(parts)` on character lists. -/
def joinNl : List (List Char) → List Char
  | [] => []
  | [x] => x
  | x :: y :: xs => x ++ '\n' :: joinNl (y :: xs)

/-- The header line written by line 138. -/
def headerLine : String := "Endpoints that returned 200 OK with fuzzed payloads:"

/-- The separator line `"=" * 50` of line 139. -/
def sepLine : List Char := List.replicate 50 '='

/-- The full contents written to the results file for a non-empty path list:
header, newline, separator, two newlines (line 139 writes `"\n\n"`), then the
newline-joined paths. -/
def saveContent (paths : List String) : String :=
  ⟨headerLine.data ++ '\n' :: (sepLine ++ '\n' :: ('\n' :: joinNl (paths.map (fun p => p.data))))⟩

/-- Model of `save_results` (lines 133–143): returns the written file (name
and contents) when one is created, plus the console message. -/
def save_results (ts : String) (l : List String) : Option (String × String) × String :=
  match l with
  | [] => (none, "No vulnerable endpoints found")
  | _ :: _ =>
    (some ("results_" ++ ts ++ ".txt", saveContent l),
     "Results saved to: results_" ++ ts ++ ".txt")

/-! ### Lemmas about the written report's line structure -/

theorem splitNl_no_nl (a : List Char) (h : '\n' ∉ a) : splitNl a = [a] := by
  induction a with
  | nil => rfl
  | cons c rest ih =>
    have hc : c ≠ '\n' := fun hh => h (hh ▸ List.mem_cons_self c rest)
    have hrest : '\n' ∉ rest := fun hh => h (List.mem_cons_of_mem c hh)
    rw [splitNl, if_neg hc, ih hrest]

theorem splitNl_append (a b : List Char) (h : '\n' ∉ a) :
    splitNl (a ++ '\n' :: b) = a :: splitNl b := by
  induction a with
  | nil => simp [splitNl]
  | cons c rest ih =>
    have hc : c ≠ '\n' := fun hh => h (hh ▸ List.mem_cons_self c rest)
    have hrest : '\n' ∉ rest := fun hh => h (List.mem_cons_of_mem c hh)
    simp only [List.cons_append]
    rw [splitNl, if_neg hc, ih hrest]

theorem splitNl_joinNl (parts : List (List Char)) (h : ∀ l ∈ parts, '\n' ∉ l)
    (hne : parts ≠ []) : splitNl (joinNl parts) = parts := by
  induction parts with
  | nil => exact absurd rfl hne
  | cons x xs ih =>
    cases xs with
    | nil => exact splitNl_no_nl x (h x (List.mem_cons_self x []))
    | cons y ys =>
      have hx : '\n' ∉ x := h x (List.mem_cons_self _ _)
      have hrest : ∀ l ∈ y :: ys, '\n' ∉ l := fun l hl => h l (List.mem_cons_of_mem _ hl)
      rw [joinNl, splitNl_append _ _ hx, ih hrest (by simp)]

theorem saveContent_lines (l : List String) (hne : l ≠ [])
    (h : ∀ p ∈ l, '\n' ∉ p.data) :
    splitNl (saveContent l).data
      = headerLine.data :: sepLine :: [] :: l.map (fun p => p.data) := by
  have hmap : ∀ a ∈ l.map (fun p => p.data), '\n' ∉ a := by
    intro a ha
    obtain ⟨p, hp, rfl⟩ := List.mem_map.mp ha
    exact h p hp
  have hmapne : l.map (fun p => p.data) ≠ [] := by
    intro hm
    exact hne (List.map_eq_nil_iff.mp hm)
  show splitNl (headerLine.data ++ '\n' ::
      (sepLine ++ '\n' :: ('\n' :: joinNl (l.map (fun p => p.data))))) = _
  rw [splitNl_append _ _ (by decide : '\n' ∉ headerLine.data)]
  rw [splitNl_append _ _ (by decide : '\n' ∉ sepLine)]
  rw [splitNl, if_pos rfl]
  rw [splitNl_joinNl _ hmap hmapne]

/-! ### Configuration resolution (lines 13–17, 34–41, 149–157) -/

/-- `DEFAULT_CONFIG` (lines 13–17), as an association list mirroring the
Python dict. -/
def DEFAULT_CONFIG : List (String × String) :=
  [("base_url", "https://api.example.com"),
   ("openapi_file", "openapi.json"),
   ("zap_proxy", "http://127.0.0.1:8080")]

/-- State of the `--config` file on disk, as observed by `load_config`. -/
inductive ConfigFileState where
  /-- `os.path.exists` is false. -/
  | absent
  /-- The file exists but `json.load` raises `JSONDecodeError`. -/
  | malformed
  /-- The file exists and parses to the given JSON object (string values). -/
  | parsed (m : List (String × String))
deriving DecidableEq, Repr

/-- `load_config` (lines 34–41): a present, valid file is returned as-is;
a missing or malformed file yields `DEFAULT_CONFIG.copy()`.  Note that a
valid file is NOT merged with the defaults. -/
def load_config : ConfigFileState → List (String × String)
  | .absent => DEFAULT_CONFIG
  | .malformed => DEFAULT_CONFIG
  | .parsed m => m

/-- Python truthiness of an optional CLI string argument
(`args.url if args.url else ...`): `None` and `""` are falsy. -/
def cliTruthy : Option String → Bool
  | none => false
  | some s => s != ""

/-- One line of the main block, e.g.
`BASE_URL = args.url if args.url else config['base_url']`: a truthy CLI flag
wins; otherwise the config dict is indexed, which fails (`KeyError`, modelled
by `none`) when the key is missing. -/
def pickSetting (cli : Option String) (cfg : List (String × String)) (key : String) :
    Option String :=
  if cliTruthy cli then cli else List.lookup key cfg

/-- Lines 152–157 of the main block: resolve `(BASE_URL, OPENAPI_FILE,
ZAP_PROXY_HOST)` from the CLI flags and the loaded config.  `none` models the
`KeyError` crash when a present, valid config file lacks a required key. -/
def resolveConfig (cliUrl cliFile : Option String) (st : ConfigFileState) :
    Option (String × String × String) :=
  let cfg := load_config st
  match pickSetting cliUrl cfg "base_url", pickSetting cliFile cfg "openapi_file",
        List.lookup "zap_proxy" cfg with
  | some bu, some f, some zp => some (bu, f, zp)
  | _, _, _ => none

/-! ### The JSON document and the driver (lines 66–76, 147–179)

`load_openapi_spec` returns the parsed JSON document or `None`; the main
block runs the fuzz loop only `if spec:` (Python truthiness) and calls
`save_results(PositiveResponses)` in a `finally` block, after catching
`KeyboardInterrupt`. -/

/-- A JSON value (numbers restricted to integers; the claims touch no
non-integer number). -/
inductive Json where
  | null
  | bool (b : Bool)
  | num (n : Int)
  | str (s : String)
  | arr (l : List Json)
  | obj (fields : List (String × Json))

/-- Python truthiness of a JSON value: `None`, `False`, `0`, `""`, `[]` and
`\x7b\x7d` are falsy. -/
def truthy : Json → Bool
  | .null => false
  | .bool b => b
  | .num n => n != 0
  | .str s => s != ""
  | .arr l => !l.isEmpty
  | .obj fields => !fields.isEmpty

/-- `d.get(k, dflt)` on a JSON object's field list. -/
def jsonGetD (fields : List (String × Json)) (k : String) (dflt : Json) : Json :=
  match List.lookup k fields with
  | some v => v
  | none => dflt

/-- Converts one parameter descriptor to the typed model.  The code reads
`p.get('in')` for the filter and `param["name"]` only for path parameters;
a path parameter without a string `name` makes the Python loop raise, which
the conversion reports as `none`.  (A non-string `name` would be formatted
by the f-string; no claim exercises that case.) -/
def paramOfJson : Json → Option Param
  | .obj fields =>
    let loc : Option String :=
      match List.lookup "in" fields with
      | some (.str s) => some s
      | _ => none
    if loc = some "path" then
      match List.lookup "name" fields with
      | some (.str n) => some ⟨n, loc⟩
      | _ => none
    else
      some ⟨"", loc⟩
  | _ => none

/-- Converts one operation: `operation.get('parameters', [])` must be a list
of parameter objects, else the Python loop raises (`none`). -/
def opOfJson : Json → Option Operation
  | .obj fields =>
    match jsonGetD fields "parameters" (.arr []) with
    | .arr ps => ps.mapM paramOfJson
    | _ => none
  | _ => none

/-- Converts one path item (`path_data.items()`): every value must be an
operation object. -/
def pathItemOfJson : Json → Option PathItem
  | .obj ms => ms.mapM (fun mv => (opOfJson mv.2).map (fun op => (mv.1, op)))
  | _ => none

/-- Extracts the typed specification read by `fuzz_path_parameters` from the
JSON document: `spec.get('paths', \x7b\x7d)` with every nested piece in the
shape the loop expects; `none` models an uncaught exception inside the loop
(the model then attributes no issued requests to the crashed run). -/
def specOfJson : Json → Option Spec
  | .obj fields =>
    match jsonGetD fields "paths" (.obj []) with
    | .obj ps =>
      (ps.mapM (fun pv => (pathItemOfJson pv.2).map (fun pi => (pv.1, pi)))).map Spec.mk
    | _ => none
  | _ => none

/-- The observable outcome of one driver run. -/
structure RunResult where
  /-- The requests actually issued (all of them, or a prefix when
  interrupted). -/
  requests : List Request
  /-- The finding list passed to `save_results` by the `finally` block. -/
  savedArg : List String
  /-- The file written by `save_results` (name and contents), if any. -/
  savedFile : Option (String × String)
  /-- The console message printed by `save_results`. -/
  savedMsg : String
  /-- True when an uncaught exception escapes the fuzz loop (it still runs
  the `finally` block, then aborts the process). -/
  crashed : Bool
deriving Repr

/-- The driver (lines 172–179):

* `doc` is the result of `load_openapi_spec` (`none` for a missing file or
  invalid JSON);
* the loop body runs only `if spec:` (Python truthiness);
* `stop = some k` models a `KeyboardInterrupt` delivered after `k` requests,
  caught by the `except KeyboardInterrupt` handler;
* the `finally` block calls `save_results(PositiveResponses)` on every exit
  path, including the crashing one. -/
def mainRun (doc : Option Json) (base : String) (resp : Request → Option Nat)
    (stop : Option Nat) (ts : String) : RunResult :=
  let loopReqs : Option (List Request) :=
    match doc with
    | none => some []
    | some j =>
      if truthy j then
        match specOfJson j with
        | some sp => some (fuzzRequests sp base)
        | none => none
      else some []
  match loopReqs with
  | some reqs =>
    let issued := match stop with
      | none => reqs
      | some k => reqs.take k
    let findings := runFindings resp issued
    let sv := save_results ts findings
    ⟨issued, findings, sv.1, sv.2, false⟩
  | none =>
    let sv := save_results ts []
    ⟨[], [], sv.1, sv.2, true⟩

/-! ### Concrete sample inputs used by the witness theorems -/

/-- A small specification with one fuzzable pair (`GET /items/\x7bid\x7d`)
and one non-fuzzable pair (`POST` with only a query parameter). -/
def sampleSpec : Spec :=
  ⟨[("/items/{id}",
     [("get", [⟨"id", some "path"⟩]),
      ("post", [⟨"q", some "query"⟩])])]⟩

/-- The request issued for `/items/\x7bid\x7d` with payload `"-5"`. -/
def sampleReq : Request :=
  ⟨"/items/{id}", "get", "-5", "https://api.example.com/items/-5"⟩

/-- The JSON OpenAPI document corresponding to `sampleSpec`'s fuzzable pair. -/
def sampleDoc : Json :=
  Json.obj [("paths",
    Json.obj [("/items/{id}",
      Json.obj [("get",
        Json.obj [("parameters",
          Json.arr [Json.obj [("name", Json.str "id"), ("in", Json.str "path")]])])])])]

/-- The typed specification `sampleDoc` converts to. -/
def sampleDocSpec : Spec :=
  ⟨[("/items/{id}", [("get", [⟨"id", some "path"⟩])])]⟩

/-! ### The claims -/

/-- C1: during the fuzz loop a path template is recorded as a finding exactly
when some request on it received a response with status code exactly 200;
a response with any other status code (201, 301, 404, 500, …) leaves the
finding list unchanged — it is not treated as an error. -/
theorem C1_only_status_200_records_finding (resp : Request → Option Nat)
    (reqs : List Request) :
    (∀ q, q ∈ runFindings resp reqs ↔ ∃ r ∈ reqs, r.path = q ∧ resp r = some 200) ∧
    (∀ acc p st, st ≠ some 200 → step acc p st = acc) := by
  constructor
  · intro q
    rw [runFindings, mem_foldl_step]
    simp
  · exact fun acc p st h => step_of_ne acc p st h

theorem C1_witness :
    ("/items/{id}" ∈ runFindings (fun _ => some 200) [sampleReq]) ∧
    step ["/a"] "/b" (some 404) = ["/a"] := by
  constructor
  · exact ((C1_only_status_200_records_finding (fun _ => some 200) [sampleReq]).1
      "/items/{id}").mpr ⟨sampleReq, by decide, by decide, rfl⟩
  · exact (C1_only_status_200_records_finding (fun _ => none) []).2 ["/a"] "/b" (some 404)
      (by decide)

/-- C2: the fuzz loop issues exactly 7 requests per fuzzable `(path, method)`
pair — those whose operation has at least one `in: path` parameter — applying
the payload list `"1","0","6,5","24","-5","*&^$","text"` in that fixed order
to every such pair; a specification with zero path-parameterized operations
issues zero requests and leaves the finding set empty. -/
theorem C2_request_count_and_payload_order (spec : Spec) (base : String) :
    (fuzzRequests spec base).length = 7 * fuzzableCount spec ∧
    FUZZ_PAYLOADS = ["1", "0", "6,5", "24", "-5", "*&^$", "text"] ∧
    (∀ p m op, (requestsFor base p m op).map (fun r => r.payload)
        = if (pathParams op).isEmpty then [] else FUZZ_PAYLOADS) ∧
    (fuzzableCount spec = 0 →
      fuzzRequests spec base = [] ∧
      ∀ resp, runFindings resp (fuzzRequests spec base) = []) := by
  refine ⟨length_fuzzRequests spec base, rfl,
    fun p m op => payloads_requestsFor base p m op, fun h => ?_⟩
  have hn := fuzzRequests_eq_nil spec base h
  exact ⟨hn, fun resp => by rw [hn]; rfl⟩

theorem C2_witness :
    (fuzzRequests sampleSpec "https://api.example.com").length = 7 ∧
    fuzzRequests ⟨[]⟩ "https://api.example.com" = [] := by
  constructor
  · have h := (C2_request_count_and_payload_order sampleSpec "https://api.example.com").1
    simpa using h
  · exact ((C2_request_count_and_payload_order ⟨[]⟩ "https://api.example.com").2.2.2
      (by decide)).1

/-- C3: every issued request substitutes one single payload for all path
parameters of its template: each request's URL is the join of the base with
the template in which every placeholder was replaced by that request's one
payload; e.g. substituting payload `"-5"` into the two-parameter template
`/users/\x7bid\x7d/orders/\x7borderId\x7d` puts `-5` in both positions, as
the concrete equation below states. -/
theorem C3_same_payload_for_all_placeholders :
    (∀ spec base r, r ∈ fuzzRequests spec base →
      ∃ p pitem method op, (p, pitem) ∈ spec.paths ∧ (method, op) ∈ pitem ∧
        r.path = p ∧ r.payload ∈ FUZZ_PAYLOADS ∧
        r.url = fullUrl base (fuzzedPath p (pathParams op) r.payload)) ∧
    fuzzedPath "/users/{id}/orders/{orderId}"
        [⟨"id", some "path"⟩, ⟨"orderId", some "path"⟩] "-5" = "/users/-5/orders/-5" := by
  constructor
  · intro spec base r hr
    obtain ⟨p, pitem, method, op, hp, hm, hmem⟩ := mem_fuzzRequests spec base r hr
    obtain ⟨hpl, hpath, _, hurl⟩ := mem_requestsFor base p method op r hmem
    exact ⟨p, pitem, method, op, hp, hm, hpath, hpl, hurl⟩
  · decide

theorem C3_witness :
    ∃ p pitem method op, (p, pitem) ∈ sampleSpec.paths ∧ (method, op) ∈ pitem ∧
      sampleReq.path = p ∧ sampleReq.payload ∈ FUZZ_PAYLOADS ∧
      sampleReq.url = fullUrl "https://api.example.com"
        (fuzzedPath p (pathParams op) sampleReq.payload) :=
  C3_same_payload_for_all_placeholders.1 sampleSpec "https://api.example.com" sampleReq
    (by decide)

/-- C4: the finding list is duplicate-free at every point of the run,
extending the run only ever appends to it (so entries stay in the order in
which each path was first flagged), a first status-200 response appends the
path at the end, and a repeated one changes nothing. -/
theorem C4_findings_nodup_and_first_flag_order (resp : Request → Option Nat)
    (reqs : List Request) :
    (runFindings resp reqs).Nodup ∧
    (∀ more, ∃ t, runFindings resp (reqs ++ more) = runFindings resp reqs ++ t) ∧
    (∀ acc p, p ∉ acc → step acc p (some 200) = acc ++ [p]) ∧
    (∀ acc p, p ∈ acc → step acc p (some 200) = acc) := by
  refine ⟨nodup_foldl_step resp reqs [] List.nodup_nil, ?_, ?_, ?_⟩
  · intro more
    rw [runFindings, runFindings, List.foldl_append]
    exact foldl_step_grows resp more _
  · intro acc p hp
    simp [step, hp]
  · intro acc p hp
    simp [step, hp]

theorem C4_witness :
    (runFindings (fun _ => some 200) [sampleReq, sampleReq]).Nodup ∧
    step [] "/items/{id}" (some 200) = [] ++ ["/items/{id}"] := by
  constructor
  · exact (C4_findings_nodup_and_first_flag_order (fun _ => some 200)
      [sampleReq, sampleReq]).1
  · exact (C4_findings_nodup_and_first_flag_order (fun _ => some 200) []).2.2.1
      [] "/items/{id}" (by decide)

/-- C5: the persistence step executes on every exit path of the driver:
the file/message pair produced by the run is exactly `save_results` applied
to the run's finding list; a failed specification load yields a completed,
non-crashed run with zero requests and an empty finding list; a
user-interrupted run persists the findings of the processed prefix without
crashing; a normally completed run persists the full findings without
crashing. -/
theorem C5_persistence_on_every_exit (doc : Option Json) (base : String)
    (resp : Request → Option Nat) (stop : Option Nat) (ts : String) :
    ((mainRun doc base resp stop ts).savedFile, (mainRun doc base resp stop ts).savedMsg)
        = save_results ts (mainRun doc base resp stop ts).savedArg ∧
    (doc = none → mainRun doc base resp stop ts
        = ⟨[], [], (save_results ts []).1, (save_results ts []).2, false⟩) ∧
    (∀ j sp k, doc = some j → truthy j = true → specOfJson j = some sp → stop = some k →
      (mainRun doc base resp stop ts).requests = (fuzzRequests sp base).take k ∧
      (mainRun doc base resp stop ts).savedArg
          = runFindings resp ((fuzzRequests sp base).take k) ∧
      (mainRun doc base resp stop ts).crashed = false) ∧
    (∀ j sp, doc = some j → truthy j = true → specOfJson j = some sp → stop = none →
      (mainRun doc base resp stop ts).requests = fuzzRequests sp base ∧
      (mainRun doc base resp stop ts).savedArg = runFindings resp (fuzzRequests sp base) ∧
      (mainRun doc base resp stop ts).crashed = false) := by
  refine ⟨?_, ?_, ?_, ?_⟩
  · cases doc with
    | none => rfl
    | some j =>
      by_cases hj : truthy j = true
      · simp only [mainRun, if_pos hj]
        cases hsp : specOfJson j with
        | some sp => rfl
        | none => rfl
      · simp only [mainRun, if_neg hj]
  · rintro rfl
    simp only [mainRun]
    cases stop <;> simp [runFindings, save_results]
  · rintro j sp k rfl hj hsp rfl
    simp only [mainRun, if_pos hj, hsp]
    simp
  · rintro j sp rfl hj hsp rfl
    simp only [mainRun, if_pos hj, hsp]
    simp

theorem C5_witness :
    mainRun none "https://api.example.com" (fun _ => none) none "12-00-00_01-01-26"
      = ⟨[], [], (save_results "12-00-00_01-01-26" []).1,
          (save_results "12-00-00_01-01-26" []).2, false⟩ ∧
    (mainRun (some sampleDoc) "https://api.example.com" (fun _ => some 200) (some 3)
        "12-00-00_01-01-26").savedArg
      = runFindings (fun _ => some 200)
          ((fuzzRequests sampleDocSpec "https://api.example.com").take 3) ∧
    (mainRun (some sampleDoc) "https://api.example.com" (fun _ => some 200) none
        "12-00-00_01-01-26").crashed = false := by
  refine ⟨?_, ?_, ?_⟩
  · exact (C5_persistence_on_every_exit none "https://api.example.com" (fun _ => none)
      none "12-00-00_01-01-26").2.1 rfl
  · exact ((C5_persistence_on_every_exit (some sampleDoc) "https://api.example.com"
      (fun _ => some 200) (some 3) "12-00-00_01-01-26").2.2.1 sampleDoc sampleDocSpec 3
      rfl rfl (by decide) rfl).2.1
  · exact ((C5_persistence_on_every_exit (some sampleDoc) "https://api.example.com"
      (fun _ => some 200) none "12-00-00_01-01-26").2.2.2 sampleDoc sampleDocSpec
      rfl rfl (by decide) rfl).2.2

/-- C6: before joining to the base URL the fuzzed relative path has its
leading slash stripped: for any path consisting of one leading slash followed
by a suffix that does not itself begin with a slash, `lstrip` removes exactly
that slash; and with base URL https://api.example.com the fuzzed path
/items/1 resolves to https://api.example.com/items/1 — no double slash and
no lost segment. -/
theorem C6_leading_slash_stripped :
    (∀ s : List Char, s.head? ≠ some '/' → lstripSlash ⟨'/' :: s⟩ = ⟨s⟩) ∧
    fullUrl "https://api.example.com" "/items/1" = "https://api.example.com/items/1" := by
  constructor
  · intro s hs
    show (⟨List.dropWhile _ ('/' :: s)⟩ : String) = ⟨s⟩
    rw [List.dropWhile_cons]
    simp only [beq_self_eq_true, if_true]
    cases s with
    | nil => rfl
    | cons c t =>
      have hc : (c == '/') = false := by
        simp only [List.head?_cons, ne_eq, Option.some.injEq] at hs
        simpa using hs
      rw [List.dropWhile_cons, hc]
      simp
  · decide

theorem C6_witness :
    lstripSlash ⟨'/' :: "items/1".data⟩ = ⟨"items/1".data⟩ ∧
    fullUrl "https://api.example.com" "/items/1" = "https://api.example.com/items/1" :=
  ⟨C6_leading_slash_stripped.1 "items/1".data (by decide), C6_leading_slash_stripped.2⟩

/-- C7 counterexample: with no CLI flags and a config file that is present
and valid JSON but contains only the key `zap_proxy`, resolution does not
complete with the built-in defaults for `base_url` and `openapi_file` — the
lookup fails (`KeyError`), contradicting the claimed per-key fallthrough to
the defaults. -/
theorem C7_counterexample :
    resolveConfig none none
        (ConfigFileState.parsed [("zap_proxy", "http://127.0.0.1:8080")]) = none ∧
    (none : Option (String × String × String))
      ≠ some ("https://api.example.com", "openapi.json", "http://127.0.0.1:8080") := by
  exact ⟨rfl, by decide⟩

/-- C7 (amended): the precedence CLI flag > config file > built-in default
holds with the qualification that the config FILE is substituted wholesale:
a missing or malformed config file is replaced by the full built-in defaults,
truthy CLI flags override the looked-up values per key, and when a valid
config file is present each setting is looked up in that file alone — a key
missing from a present, valid config file makes resolution fail instead of
falling through to the built-in default. -/
theorem C7_config_resolution (cliUrl cliFile : Option String) (m : List (String × String)) :
    (resolveConfig cliUrl cliFile .malformed = resolveConfig cliUrl cliFile .absent) ∧
    (resolveConfig none none .absent
        = some ("https://api.example.com", "openapi.json", "http://127.0.0.1:8080")) ∧
    (∀ u f, u ≠ "" → f ≠ "" →
      resolveConfig (some u) (some f) .absent = some (u, f, "http://127.0.0.1:8080")) ∧
    (List.lookup "base_url" m = none → resolveConfig none cliFile (.parsed m) = none) ∧
    (∀ bu f zp, List.lookup "base_url" m = some bu →
      List.lookup "openapi_file" m = some f → List.lookup "zap_proxy" m = some zp →
      resolveConfig none none (.parsed m) = some (bu, f, zp)) := by
  refine ⟨rfl, rfl, ?_, ?_, ?_⟩
  · intro u f hu hf
    have hz : List.lookup "zap_proxy" (load_config .absent) = some "http://127.0.0.1:8080" := rfl
    simp [resolveConfig, pickSetting, cliTruthy, bne_iff_ne, hu, hf, hz]
  · intro h
    simp [resolveConfig, pickSetting, cliTruthy, load_config, h]
  · intro bu f zp h1 h2 h3
    simp [resolveConfig, pickSetting, cliTruthy, load_config, h1, h2, h3]

theorem C7_witness :
    resolveConfig (some "http://target.example") (some "spec.json") .absent
      = some ("http://target.example", "spec.json", "http://127.0.0.1:8080") ∧
    resolveConfig none (some "x.json") (.parsed [("openapi_file", "f.json")]) = none ∧
    resolveConfig none none (.parsed DEFAULT_CONFIG)
      = some ("https://api.example.com", "openapi.json", "http://127.0.0.1:8080") := by
  refine ⟨?_, ?_, ?_⟩
  · exact (C7_config_resolution none none []).2.2.1 "http://target.example" "spec.json"
      (by decide) (by decide)
  · exact (C7_config_resolution none (some "x.json")
      [("openapi_file", "f.json")]).2.2.2.1 (by decide)
  · exact (C7_config_resolution none none DEFAULT_CONFIG).2.2.2.2
      "https://api.example.com" "openapi.json" "http://127.0.0.1:8080"
      (by decide) (by decide) (by decide)

/-- C8 counterexample: with the single finding `"/a"`, the third line
(index 2) of the written file is blank, not the first flagged path — the
flagged paths do not start immediately after the two-line header, because
line 139 of the code writes `"=" * 50 + "\n\n"`. -/
theorem C8_counterexample :
    (splitNl (saveContent ["/a"]).data)[2]? = some [] ∧
    some ([] : List Char) ≠ some "/a".data := by
  exact ⟨by decide, by decide⟩

/-- C8 (amended): on an empty finding set no file is written and the message
`No vulnerable endpoints found` is printed; on a non-empty finding set
exactly one file named `results_<timestamp>.txt` is written, whose lines are
the fixed header line, the 50-character separator line, one blank line, and
then every distinct flagged path, one per line. -/
theorem C8_report_file (ts : String) (l : List String) :
    (save_results ts [] = (none, "No vulnerable endpoints found")) ∧
    (l ≠ [] → save_results ts l
        = (some ("results_" ++ ts ++ ".txt", saveContent l),
           "Results saved to: results_" ++ ts ++ ".txt")) ∧
    (l ≠ [] → (∀ p ∈ l, '\n' ∉ p.data) →
      splitNl (saveContent l).data
        = headerLine.data :: sepLine :: [] :: l.map (fun p => p.data)) := by
  refine ⟨rfl, ?_, fun h1 h2 => saveContent_lines l h1 h2⟩
  intro h
  cases l with
  | nil => exact absurd rfl h
  | cons x xs => rfl

theorem C8_witness :
    save_results "10-30-00_05-10-25" ["/items/{id}"]
      = (some ("results_" ++ "10-30-00_05-10-25" ++ ".txt", saveContent ["/items/{id}"]),
         "Results saved to: results_" ++ "10-30-00_05-10-25" ++ ".txt") ∧
    splitNl (saveContent ["/items/{id}"]).data
      = headerLine.data :: sepLine :: [] :: ["/items/{id}".data] := by
  constructor
  · exact (C8_report_file "10-30-00_05-10-25" ["/items/{id}"]).2.1 (by decide)
  · have h := (C8_report_file "10-30-00_05-10-25" ["/items/{id}"]).2.2
      (by decide) (by decide)
    simpa using h

/-- C10: a document that parses but is falsy (such as the empty object,
empty array, `null` or `0`) makes the run identical to a failed load — the
fuzz loop is skipped, zero requests are issued, persistence gets an empty
finding set; and a truthy object with no `paths` member issues zero requests
without crashing. -/
theorem C10_falsy_or_pathless_document (base : String) (resp : Request → Option Nat)
    (stop : Option Nat) (ts : String) :
    (∀ j, truthy j = false →
      mainRun (some j) base resp stop ts = mainRun none base resp stop ts ∧
      (mainRun (some j) base resp stop ts).requests = [] ∧
      (mainRun (some j) base resp stop ts).savedArg = []) ∧
    (∀ fs, truthy (Json.obj fs) = true → List.lookup "paths" fs = none →
      (mainRun (some (Json.obj fs)) base resp stop ts).requests = [] ∧
      (mainRun (some (Json.obj fs)) base resp stop ts).savedArg = [] ∧
      (mainRun (some (Json.obj fs)) base resp stop ts).crashed = false) := by
  constructor
  · intro j hj
    have hif : (if truthy j = true then
          match specOfJson j with
          | some sp => some (fuzzRequests sp base)
          | none => none
        else some ([] : List Request)) = some [] := by
      rw [if_neg (by simp [hj])]
    refine ⟨?_, ?_, ?_⟩ <;> simp only [mainRun, hif] <;> cases stop <;>
      simp [runFindings]
  · intro fs htr hlk
    have hsp : specOfJson (Json.obj fs) = some ⟨[]⟩ := by
      simp only [specOfJson, jsonGetD, hlk]
      rfl
    refine ⟨?_, ?_, ?_⟩ <;> simp only [mainRun, if_pos htr, hsp] <;> cases stop <;>
      simp [runFindings, fuzzRequests]

theorem C10_witness :
    mainRun (some (Json.obj [])) "https://api.example.com" (fun _ => none) none "ts"
      = mainRun none "https://api.example.com" (fun _ => none) none "ts" ∧
    (mainRun (some (Json.obj [("openapi", Json.str "3.0.0")])) "https://api.example.com"
        (fun _ => none) none "ts").requests = [] := by
  constructor
  · exact ((C10_falsy_or_pathless_document "https://api.example.com" (fun _ => none)
      none "ts").1 (Json.obj []) rfl).1
  · exact ((C10_falsy_or_pathless_document "https://api.example.com" (fun _ => none)
      none "ts").2 [("openapi", Json.str "3.0.0")] rfl rfl).1

end AutoFuzz
